import Mathlib

/-!
Shallow embedding of `src/TheBetterLibraries.py`, a Streamlit stock-analysis
pipeline: a market-data fetch (`fetch_fmp_data`), an indicator engine
(`add_indicator` inside `analyze_ticker`), and a recommendation step that
sends a chart to a generative model and extracts a JSON verdict from the free
text reply (`analyze_ticker`, lines 186-210), aggregated into a summary table
(`overall_results`, lines 216-234).

Conventions of the embedding:
  - Python strings are Lean `String` / `List Char`; `str.find` / `str.rfind`
    return `Int` (with -1 for absence) exactly as in Python.
  - `json.loads` is embedded as `json_loads`, a fuel-based recursive-descent
    parser of the JSON grammar (objects, arrays, strings with escapes,
    numbers, literals), returning `Except` like the Python call raising
    `json.JSONDecodeError`.  Python dicts are association lists with
    insert-or-replace semantics (`dictInsert`), preserving insertion order.
  - Machine floats are modelled as `ℚ` (exact arithmetic); pandas NaN cells
    are `Option ℚ` with `none` for NaN.  The Bollinger standard deviation
    needs a square root and is modelled over `ℝ`; it feeds only chart traces.
  - Exceptions are modelled with `Except String`: an uncaught exception is
    `Except.error`, normal completion is `Except.ok`.
-/

/-- Curly brace characters, used by the verdict extraction (`find` of the
opening and `rfind` of the closing brace in `analyze_ticker`). -/
def lbrace : Char := Char.ofNat 123

/-- Closing curly brace character. -/
def rbrace : Char := Char.ofNat 125

/-- JSON values as produced by `json.loads`: Python dicts become ordered
association lists, numbers become exact rationals. -/
inductive Json where
  | null : Json
  | bool (b : Bool) : Json
  | num (q : ℚ) : Json
  | str (s : String) : Json
  | arr (elems : List Json) : Json
  | obj (pairs : List (String × Json)) : Json

/-- Python dict insertion: replace the value in place if the key exists
(keeping its position), otherwise append at the end.  Used both for JSON
object construction in `json.loads` and for the `stock_data` dict that the
Fetch Data button builds. -/
def dictInsert {α : Type} (d : List (String × α)) (k : String) (v : α) :
    List (String × α) :=
  match d with
  | [] => [(k, v)]
  | (k0, v0) :: rest =>
    if k0 = k then (k, v) :: rest else (k0, v0) :: dictInsert rest k v

/-- JSON insignificant whitespace. -/
def isJsonWs (c : Char) : Bool :=
  c = ' ' || c = '\t' || c = '\n' || c = '\r'

/-- Skip JSON whitespace. -/
def skipWs : List Char → List Char
  | [] => []
  | c :: cs => if isJsonWs c then skipWs cs else c :: cs

/-- Value of a hexadecimal digit, for \u escapes. -/
def hexDigitVal (c : Char) : Option Nat :=
  if '0' ≤ c ∧ c ≤ '9' then some (c.toNat - '0'.toNat)
  else if 'a' ≤ c ∧ c ≤ 'f' then some (c.toNat - 'a'.toNat + 10)
  else if 'A' ≤ c ∧ c ≤ 'F' then some (c.toNat - 'A'.toNat + 10)
  else none

/-- One-character JSON string escapes. -/
def unescapeChar (e : Char) : Option Char :=
  if e = '"' then some '"'
  else if e = '\\' then some '\\'
  else if e = '/' then some '/'
  else if e = 'b' then some (Char.ofNat 8)
  else if e = 'f' then some (Char.ofNat 12)
  else if e = 'n' then some '\n'
  else if e = 'r' then some '\r'
  else if e = 't' then some '\t'
  else none

/-- Numeric value of a digit string. -/
def digitsVal (ds : List Char) : Nat :=
  ds.foldl (fun acc c => acc * 10 + (c.toNat - '0'.toNat)) 0

/-- Parse a JSON number per the JSON grammar (optional minus, integer part
with no leading zero, optional fraction, optional exponent), as an exact
rational. -/
def parseNumber (cs : List Char) : Option (ℚ × List Char) :=
  let signed : Bool × List Char :=
    match cs with
    | c :: r => if c = '-' then (true, r) else (false, cs)
    | [] => (false, cs)
  let neg := signed.1
  let cs1 := signed.2
  match cs1 with
  | [] => none
  | c :: _ =>
    if c.isDigit then
      let ip := List.span Char.isDigit cs1
      let ds := ip.1
      let cs2 := ip.2
      if 1 < ds.length ∧ ds.headD 'x' = '0' then none
      else
        let intPart : ℚ := (digitsVal ds : ℚ)
        let fracStep : Option (ℚ × List Char) :=
          match cs2 with
          | c2 :: r2 =>
            if c2 = '.' then
              let fp := List.span Char.isDigit r2
              if fp.1.isEmpty then none
              else some (intPart + (digitsVal fp.1 : ℚ) / (10 : ℚ) ^ fp.1.length, fp.2)
            else some (intPart, cs2)
          | [] => some (intPart, cs2)
        match fracStep with
        | none => none
        | some (mant, cs3) =>
          let expStep : Option (ℚ × List Char) :=
            match cs3 with
            | c3 :: r3 =>
              if c3 = 'e' ∨ c3 = 'E' then
                let esigned : Bool × List Char :=
                  match r3 with
                  | c4 :: r4 =>
                    if c4 = '-' then (true, r4)
                    else if c4 = '+' then (false, r4)
                    else (false, r3)
                  | [] => (false, r3)
                let ep := List.span Char.isDigit esigned.2
                if ep.1.isEmpty then none
                else
                  let e : ℤ := if esigned.1 then -(digitsVal ep.1 : ℤ) else (digitsVal ep.1 : ℤ)
                  some (mant * (10 : ℚ) ^ e, ep.2)
              else some (mant, cs3)
            | [] => some (mant, cs3)
          match expStep with
          | none => none
          | some (q, cs4) => some ((if neg then -q else q), cs4)
    else none

mutual

/-- Parse one JSON value (after skipping whitespace), fuel-bounded.  Mirrors
the grammar accepted by `json.loads`. -/
def parseValue (fuel : Nat) (cs : List Char) : Option (Json × List Char) :=
  match fuel with
  | 0 => none
  | fuel' + 1 =>
    match skipWs cs with
    | [] => none
    | c :: rest =>
      if c = lbrace then
        match skipWs rest with
        | [] => none
        | c2 :: r2 =>
          if c2 = rbrace then some (Json.obj [], r2)
          else
            match parseMembers fuel' (c2 :: r2) [] with
            | some (ps, r) => some (Json.obj ps, r)
            | none => none
      else if c = '[' then
        match skipWs rest with
        | [] => none
        | c2 :: r2 =>
          if c2 = ']' then some (Json.arr [], r2)
          else
            match parseElems fuel' (c2 :: r2) [] with
            | some (vs, r) => some (Json.arr vs, r)
            | none => none
      else if c = '"' then
        match parseStringBody fuel' rest with
        | some (scs, r) => some (Json.str (String.mk scs), r)
        | none => none
      else
        match c :: rest with
        | 't' :: 'r' :: 'u' :: 'e' :: r => some (Json.bool true, r)
        | 'f' :: 'a' :: 'l' :: 's' :: 'e' :: r => some (Json.bool false, r)
        | 'n' :: 'u' :: 'l' :: 'l' :: r => some (Json.null, r)
        | cs2 =>
          match parseNumber cs2 with
          | some (q, r) => some (Json.num q, r)
          | none => none

/-- Parse the members of a JSON object after the opening brace (at least one
member present), accumulating with Python dict insertion semantics. -/
def parseMembers (fuel : Nat) (cs : List Char) (acc : List (String × Json)) :
    Option (List (String × Json) × List Char) :=
  match fuel with
  | 0 => none
  | fuel' + 1 =>
    match skipWs cs with
    | [] => none
    | c :: r =>
      if c = '"' then
        match parseStringBody fuel' r with
        | none => none
        | some (keyChars, r2) =>
          match skipWs r2 with
          | [] => none
          | c3 :: r3 =>
            if c3 = ':' then
              match parseValue fuel' r3 with
              | none => none
              | some (v, r4) =>
                let acc2 := dictInsert acc (String.mk keyChars) v
                match skipWs r4 with
                | [] => none
                | c5 :: r5 =>
                  if c5 = ',' then parseMembers fuel' r5 acc2
                  else if c5 = rbrace then some (acc2, r5)
                  else none
            else none
      else none

/-- Parse the elements of a JSON array after the opening bracket (at least
one element present). -/
def parseElems (fuel : Nat) (cs : List Char) (acc : List Json) :
    Option (List Json × List Char) :=
  match fuel with
  | 0 => none
  | fuel' + 1 =>
    match parseValue fuel' cs with
    | none => none
    | some (v, rest) =>
      match skipWs rest with
      | [] => none
      | c :: r2 =>
        if c = ',' then parseElems fuel' r2 (acc ++ [v])
        else if c = ']' then some (acc ++ [v], r2)
        else none

/-- Parse a JSON string body after the opening quote; returns the decoded
characters and the rest after the closing quote.  Rejects raw control
characters (strict mode) and unknown escapes. -/
def parseStringBody (fuel : Nat) (cs : List Char) :
    Option (List Char × List Char) :=
  match fuel with
  | 0 => none
  | fuel' + 1 =>
    match cs with
    | [] => none
    | c :: rest =>
      if c = '"' then some ([], rest)
      else if c = '\\' then
        match rest with
        | [] => none
        | e :: cs2 =>
          if e = 'u' then
            match cs2 with
            | a :: b :: c3 :: d :: cs3 =>
              match hexDigitVal a, hexDigitVal b, hexDigitVal c3, hexDigitVal d with
              | some x, some y, some z, some w =>
                match parseStringBody fuel' cs3 with
                | some (s, r) => some (Char.ofNat (((x * 16 + y) * 16 + z) * 16 + w) :: s, r)
                | none => none
              | _, _, _, _ => none
            | _ => none
          else
            match unescapeChar e with
            | none => none
            | some ch =>
              match parseStringBody fuel' cs2 with
              | some (s, r) => some (ch :: s, r)
              | none => none
      else if c.toNat < 32 then none
      else
        match parseStringBody fuel' rest with
        | some (s, r) => some (c :: s, r)
        | none => none

end

/-- Embedding of `json.loads`: parse one JSON value, allow surrounding
whitespace only, fail (`Except.error`, the `json.JSONDecodeError` of the
source) otherwise.  The fuel bound over-approximates the deepest possible
recursion for the input length. -/
def json_loads (s : String) : Except String Json :=
  match parseValue (2 * s.length + 2) s.data with
  | some (v, rest) =>
    if (skipWs rest).isEmpty then Except.ok v else Except.error "Extra data"
  | none => Except.error "Expecting value"

/-- Python `str.find`: index of the first occurrence of the character, or -1.
Indexing is over code points, matching Python string indices. -/
def pyFindAux (cs : List Char) (target : Char) (i : Nat) : Option Nat :=
  match cs with
  | [] => none
  | c :: r => if c = target then some i else pyFindAux r target (i + 1)

/-- Python `result_text.find(c)`. -/
def str_find (s : String) (c : Char) : Int :=
  match pyFindAux s.data c 0 with
  | some i => (i : Int)
  | none => -1

/-- Python `result_text.rfind(c)`: index of the last occurrence, or -1. -/
def str_rfind (s : String) (c : Char) : Int :=
  match pyFindAux s.data.reverse c 0 with
  | some i => ((s.data.length - 1 - i : Nat) : Int)
  | none => -1

/-- Lines 196-199 of `analyze_ticker`: `json_start_index = result_text.find`
of the opening brace, `json_end_index = result_text.rfind` of the closing
brace `+ 1`; when `json_start_index != -1 and json_end_index >
json_start_index`, the slice `result_text[json_start_index:json_end_index]`;
otherwise (modelled as `none`) the code raises
`ValueError("No valid JSON object found in the response")`. -/
def extract_json_span (t : String) : Option String :=
  let js := str_find t lbrace
  let je := str_rfind t rbrace + 1
  if js ≠ -1 ∧ je > js then
    some (String.mk ((t.data.drop js.toNat).take (je - js).toNat))
  else none

/-- The error verdict dict literally built by the except-handlers of
`analyze_ticker`. -/
def error_obj (just : String) : Json :=
  Json.obj [("action", Json.str "Error"), ("justification", Json.str just)]

/-- Lines 194-208 of `analyze_ticker` applied to an obtained reply text: cut
the first-brace..last-brace span and `json.loads` it; a missing span raises
`ValueError`, caught into an Error verdict; a parse failure raises
`json.JSONDecodeError`, caught into an Error verdict.  (The exact
`JSONDecodeError` message of CPython is not reproduced; only its presence
matters to the control flow.) -/
def parse_model_response (t : String) : Json :=
  match extract_json_span t with
  | some s =>
    match json_loads s with
    | Except.ok j => j
    | Except.error e => error_obj ("JSON Parsing error: " ++ e ++ ". Raw text: " ++ t)
  | none =>
    error_obj ("Value Error: No valid JSON object found in the response. Raw text: " ++ t)

/-- Python `result.get(k, dflt)` on the parsed verdict dict. -/
def dict_get (j : Json) (k : String) (dflt : Json) : Json :=
  match j with
  | Json.obj ps =>
    match ps.lookup k with
    | some v => v
    | none => dflt
  | _ => dflt

/-- Whether the parsed JSON object carries a key (Python `k in result`). -/
def hasKey (j : Json) (k : String) : Bool :=
  match j with
  | Json.obj ps => (ps.lookup k).isSome
  | _ => false

/-- Outcome of the model round trip in `analyze_ticker`: either
`gen_model.generate_content` itself raises (line 191, outside the
try/except), or a response object is obtained and its `.text` accessor
either yields the reply text or raises (e.g. a blocked response with no
parts). -/
inductive ModelOutcome where
  | raisedOnCall (e : String) : ModelOutcome
  | gotResponse (text : Except String String) : ModelOutcome

/-- The recommendation step of `analyze_ticker` (lines 191-210) for one
ticker.  `generate_content` raising propagates uncaught (`Except.error`):
the call sits before the try block.  A raising `.text` accessor is caught by
`except Exception`, but the handler message interpolates `response.text`
again, which re-raises; so it also escapes as `Except.error`.  An obtained
text is parsed by `parse_model_response`, which always returns a dict. -/
def analyze_recommendation : ModelOutcome → Except String Json
  | ModelOutcome.raisedOnCall e => Except.error e
  | ModelOutcome.gotResponse (Except.error e) => Except.error e
  | ModelOutcome.gotResponse (Except.ok t) => Except.ok (parse_model_response t)

/-- One row of `overall_results` (line 222):
`{"Stock": ticker, "Recommendation": result.get("action", "N/A")}`. -/
def summary_row (ticker : String) (result : Json) : String × Json :=
  (ticker, dict_get result "action" (Json.str "N/A"))

/-- The per-ticker justification display (line 228):
`result.get("justification", "No justification provided.")`. -/
def shown_justification (result : Json) : Json :=
  dict_get result "justification" (Json.str "No justification provided.")

/-- The analysis loop of lines 219-228: for each ticker in `stock_data`, run
the recommendation step and append a summary row; an uncaught exception in
any step aborts the whole loop (and the Streamlit script run). -/
def runAnalyses : List (String × ModelOutcome) → Except String (List (String × Json))
  | [] => Except.ok []
  | (tk, o) :: rest =>
    match analyze_recommendation o with
    | Except.error e => Except.error e
    | Except.ok result =>
      match runAnalyses rest with
      | Except.error e => Except.error e
      | Except.ok rows => Except.ok (summary_row tk result :: rows)

/-- The seven recommendation labels enumerated in the prompt of
`analyze_ticker` (line 182). -/
def allowed_actions : List String :=
  ["Strong Buy", "Buy", "Weak Buy", "Hold", "Weak Sell", "Sell", "Strong Sell"]

/-- A reply text on which the span extraction or the JSON parse fails (the
two caught failure modes of the parsing block). -/
def parse_failed (t : String) : Prop :=
  extract_json_span t = none ∨
    ∃ s, extract_json_span t = some s ∧ ∃ e, json_loads s = Except.error e

/-- One bar of the `historical` payload after column renaming and coercion:
`date` (as a day number, `pd.to_datetime` being order-preserving) and the
numeric fields.  `pd.to_numeric(errors="coerce")` is abstracted: the fields
arrive already numeric, invalid cells being out of scope of the claims. -/
structure RawBar where
  date : Nat
  openPrice : ℚ
  high : ℚ
  low : ℚ
  close : ℚ
  volume : ℚ
deriving DecidableEq

/-- Outcome of the HTTP round trip in `fetch_fmp_data`: either some step of
`requests.get` / `raise_for_status` / `.json()` raised (caught by the
try/except, lines 67-73), or a JSON body was obtained whose `historical`
field is absent (`none`) or present with a list of bars. -/
inductive FetchOutcome where
  | httpError (e : String) : FetchOutcome
  | ok (historical : Option (List RawBar)) : FetchOutcome

/-- The `df.sort_values("Date")` of line 98: sort the bars by ascending
date.  Equal dates are kept (sorting never deduplicates rows). -/
def sortBars (bars : List RawBar) : List RawBar :=
  List.insertionSort (fun a b => a.date ≤ b.date) bars

/-- `fetch_fmp_data` (lines 51-103): an exception during the request yields
an empty frame (with a warning); `data_json.get("historical", [])` absent or
empty yields an empty frame; otherwise the bars are renamed, coerced and
sorted ascending by date. -/
def fetch_fmp_data : FetchOutcome → List RawBar
  | FetchOutcome.httpError _ => []
  | FetchOutcome.ok none => []
  | FetchOutcome.ok (some historical) =>
    if historical.isEmpty then [] else sortBars historical

/-- The Fetch Data button handler (lines 108-121): loop over the tickers,
fetch each, and store only the non-empty frames into the `stock_data` dict
(a warning is shown for the empty ones; the loop continues). -/
def fetch_button (tickers : List String) (resp : String → FetchOutcome) :
    List (String × List RawBar) :=
  tickers.foldl
    (fun d t =>
      let df := fetch_fmp_data (resp t)
      if df.isEmpty then d else dictInsert d t df)
    []

/-- A fetch outcome the code treats as fail-soft (lines 67-78): a transport
error or non-success status or JSON decode failure, an absent `historical`
field, or a present-but-empty `historical` list. -/
def fetch_failure : FetchOutcome → Prop
  | FetchOutcome.httpError _ => True
  | FetchOutcome.ok none => True
  | FetchOutcome.ok (some historical) => historical = []

/-- The whole run as it affects the summary table: fetch and filter the
tickers (button handler), then run the analysis loop over the stored
tickers in order, collecting `overall_results`. -/
def pipeline_summary (tickers : List String) (resp : String → FetchOutcome)
    (model : String → ModelOutcome) : Except String (List (String × Json)) :=
  runAnalyses ((fetch_button tickers resp).map (fun p => (p.1, model p.1)))

/-- The indicator columns of the pandas frame, as parallel lists; `VWAP` is
the column that the VWAP branch of `add_indicator` assigns onto the frame
(`data["VWAP"] = ...`), absent before. -/
structure DataFrame where
  Date : List Nat
  Open : List ℚ
  High : List ℚ
  Low : List ℚ
  Close : List ℚ
  Volume : List ℚ
  VWAP : Option (List (Option ℚ))

/-- Build the frame of a fetched bar list (column view of the DataFrame that
`fetch_fmp_data` returns; no `VWAP` column yet). -/
def toFrame (bars : List RawBar) : DataFrame where
  Date := bars.map RawBar.date
  Open := bars.map RawBar.openPrice
  High := bars.map RawBar.high
  Low := bars.map RawBar.low
  Close := bars.map RawBar.close
  Volume := bars.map RawBar.volume
  VWAP := none

/-- `data["Close"].rolling(window=20).mean()` generalized over the window:
value at index `i` is the mean of the trailing `w` observations, `NaN`
(`none`) while fewer than `w` are available. -/
def rolling_mean (w : Nat) (xs : List ℚ) : List (Option ℚ) :=
  (List.range xs.length).map (fun i =>
    if i + 1 < w then none
    else some (((xs.drop (i + 1 - w)).take w).sum / (w : ℚ)))

/-- `data["Close"].ewm(span=20).mean()` (pandas defaults: `adjust=True`,
`min_periods=0`): with `α = 2/(span+1)`, the value at index `t` is
`Σ_(i≤t) (1-α)^i·x_(t-i) / Σ_(i≤t) (1-α)^i`; defined from the very first
bar. -/
def ewm_mean (span : Nat) (xs : List ℚ) : List ℚ :=
  (List.range xs.length).map (fun t =>
    (∑ i ∈ Finset.range (t + 1), (1 - 2 / ((span : ℚ) + 1)) ^ i * xs.getD (t - i) 0) /
      (∑ i ∈ Finset.range (t + 1), (1 - 2 / ((span : ℚ) + 1)) ^ i))

/-- `data["Close"].rolling(window=20).std()`: trailing sample standard
deviation (pandas default `ddof=1`), `NaN` while fewer than `w`
observations.  Needs a square root, hence valued in `ℝ`. -/
noncomputable def rolling_std (w : Nat) (xs : List ℚ) : List (Option ℝ) :=
  (List.range xs.length).map (fun i =>
    if i + 1 < w then none
    else
      let window := (xs.drop (i + 1 - w)).take w
      let mean := window.sum / (w : ℚ)
      some (Real.sqrt ((window.map (fun x => ((x - mean : ℚ) : ℝ) ^ 2)).sum / ((w : ℝ) - 1))))

/-- The VWAP column of the VWAP branch (line 158):
`(Close*Volume).cumsum() / Volume.cumsum()`, a whole-history running
statistic; `none` models the NaN produced when the cumulative volume is
zero. -/
def vwap_series (closes vols : List ℚ) : List (Option ℚ) :=
  (List.range closes.length).map (fun k =>
    let den := (vols.take (k + 1)).sum
    if den = 0 then none
    else some (((List.zipWith (fun c v => c * v) closes vols).take (k + 1)).sum / den))

/-- One overlay trace added to the plotly figure by `add_indicator`. -/
structure Trace where
  name : String
  values : List (Option ℝ)

/-- Real-valued view of a rational indicator column, for a chart trace. -/
def traceOfQ (xs : List (Option ℚ)) : List (Option ℝ) :=
  xs.map (Option.map (fun q : ℚ => (q : ℝ)))

/-- The four indicator names of the sidebar multiselect. -/
inductive Indicator where
  | sma20 : Indicator
  | ema20 : Indicator
  | bollinger20 : Indicator
  | vwap : Indicator

/-- NaN-propagating elementwise `sma ± 2·std` of the Bollinger branch. -/
noncomputable def bollingerBand (sgn : ℝ) (sma : List (Option ℚ)) (std : List (Option ℝ)) :
    List (Option ℝ) :=
  List.zipWith
    (fun a b =>
      match a, b with
      | some m, some s => some ((m : ℝ) + sgn * (2 * s))
      | _, _ => none)
    sma std

/-- `add_indicator` (lines 141-159): each branch computes its series from
the frame columns and appends line traces to the figure; only the VWAP
branch also assigns a new `VWAP` column onto the frame itself. -/
noncomputable def add_indicator (data : DataFrame) (fig : List Trace) :
    Indicator → DataFrame × List Trace
  | Indicator.sma20 =>
    (data, fig ++ [⟨"SMA (20)", traceOfQ (rolling_mean 20 data.Close)⟩])
  | Indicator.ema20 =>
    (data, fig ++ [⟨"EMA (20)", (ewm_mean 20 data.Close).map (fun q => some (q : ℝ))⟩])
  | Indicator.bollinger20 =>
    (data,
      fig ++
        [⟨"BB Upper", bollingerBand 1 (rolling_mean 20 data.Close) (rolling_std 20 data.Close)⟩,
         ⟨"BB Lower", bollingerBand (-1) (rolling_mean 20 data.Close) (rolling_std 20 data.Close)⟩])
  | Indicator.vwap =>
    ({data with VWAP := some (vwap_series data.Close data.Volume)},
      fig ++ [⟨"VWAP", traceOfQ (vwap_series data.Close data.Volume)⟩])

/-- The indicator loop of `analyze_ticker` (lines 161-162): fold
`add_indicator` over the selected indicators. -/
noncomputable def apply_indicators (data : DataFrame) (fig : List Trace)
    (inds : List Indicator) : DataFrame × List Trace :=
  inds.foldl (fun p ind => add_indicator p.1 p.2 ind) (data, fig)

/-- A concrete daily bar, for the end-to-end scenario of the spec. -/
def demo_bar : RawBar :=
  { date := 1, openPrice := 10, high := 12, low := 9, close := 11, volume := 1000 }

/-- The two-ticker scenario of the spec: the AAPL fetch returns an empty
`historical` payload, the MSFT fetch succeeds with one bar. -/
def demo_resp (t : String) : FetchOutcome :=
  if t = "AAPL" then FetchOutcome.ok (some []) else FetchOutcome.ok (some [demo_bar])

/-- A model that replies with a well-formed Buy verdict for every ticker. -/
def demo_model (_ : String) : ModelOutcome :=
  ModelOutcome.gotResponse
    (Except.ok ("\x7b\"action\": \"Buy\", \"justification\": \"clear uptrend\"\x7d"))



/-! ## Helper lemmas -/

/-- A character absent from the list is never found. -/
theorem pyFindAux_eq_none {cs : List Char} {tgt : Char}
    (h : ∀ c ∈ cs, c ≠ tgt) : ∀ i, pyFindAux cs tgt i = none := by
  induction cs with
  | nil => intro i; rfl
  | cons c rest ih =>
    intro i
    have hc : c ≠ tgt := h c (List.mem_cons_self c rest)
    simp only [pyFindAux, if_neg hc]
    exact ih (fun d hd => h d (List.mem_cons_of_mem c hd)) (i + 1)

/-- A reply without an opening brace has no extractable JSON span. -/
theorem extract_json_span_eq_none {t : String}
    (h : ∀ c ∈ t.data, c ≠ lbrace) : extract_json_span t = none := by
  have hfind : str_find t lbrace = -1 := by
    simp only [str_find, pyFindAux_eq_none h 0]
  simp only [extract_json_span, hfind]
  norm_num

/-- On the two caught parse-failure modes, the produced verdict dict has
action `"Error"`. -/
theorem parse_failed_action_error {t : String} (h : parse_failed t) :
    dict_get (parse_model_response t) "action" (Json.str "N/A") = Json.str "Error" := by
  rcases h with hnone | ⟨s, hs, e, he⟩
  · simp only [parse_model_response, hnone]
    rfl
  · simp only [parse_model_response, hs, he]
    rfl

/-- `result.get(k, dflt)` returns the default when the key is absent. -/
theorem dict_get_of_hasKey_false {j : Json} {k : String} (h : hasKey j k = false)
    (dflt : Json) : dict_get j k dflt = dflt := by
  cases j with
  | obj ps =>
    cases hl : List.lookup k ps with
    | none => simp only [dict_get, hl]
    | some v =>
      rw [hasKey, hl] at h
      exact absurd h (by simp)
  | null => rfl
  | bool b => rfl
  | num q => rfl
  | str s => rfl
  | arr es => rfl

/-! ## Claim theorems -/

/-- C4: verdict parsing takes the substring of the raw reply from the first
opening brace through the last closing brace and parses it as JSON; on the
reply `"Here is the result: {"action": "Buy", "justification": "uptrend"} "`
the extracted span is exactly that object, it parses, and the resulting
verdict is exactly `{action: "Buy", justification: "uptrend"}`. -/
theorem json_span_extraction_example :
    extract_json_span ("Here is the result: \x7b\"action\": \"Buy\", \"justification\": \"uptrend\"\x7d ") =
      some ("\x7b\"action\": \"Buy\", \"justification\": \"uptrend\"\x7d") ∧
    json_loads ("\x7b\"action\": \"Buy\", \"justification\": \"uptrend\"\x7d") =
      Except.ok (Json.obj [("action", Json.str "Buy"), ("justification", Json.str "uptrend")]) ∧
    parse_model_response ("Here is the result: \x7b\"action\": \"Buy\", \"justification\": \"uptrend\"\x7d ") =
      Json.obj [("action", Json.str "Buy"), ("justification", Json.str "uptrend")] :=
  ⟨rfl, rfl, rfl⟩

/-- C5: a raw reply containing neither an opening nor a closing brace
produces the Error verdict whose justification is the `ValueError` message
describing the absent JSON, plus the raw text. -/
theorem no_brace_reply_error_verdict (t : String)
    (h : ∀ c ∈ t.data, c ≠ lbrace ∧ c ≠ rbrace) :
    parse_model_response t =
      error_obj ("Value Error: No valid JSON object found in the response. Raw text: " ++ t) ∧
    dict_get (parse_model_response t) "action" (Json.str "N/A") = Json.str "Error" := by
  have hnone : extract_json_span t = none :=
    extract_json_span_eq_none (fun c hc => (h c hc).1)
  constructor
  · simp only [parse_model_response, hnone]
  · exact parse_failed_action_error (Or.inl hnone)

/-- Witness for C5 at the concrete braceless reply. -/
theorem no_brace_reply_error_verdict_witness :
    parse_model_response ("Sorry, I cannot analyze this chart.") =
      error_obj ("Value Error: No valid JSON object found in the response. Raw text: Sorry, I cannot analyze this chart.") ∧
    dict_get (parse_model_response ("Sorry, I cannot analyze this chart.")) "action" (Json.str "N/A") =
      Json.str "Error" :=
  no_brace_reply_error_verdict ("Sorry, I cannot analyze this chart.") (by decide)

/-- C1 counterexample: a transport/model error in `generate_content` (line
191) is raised before the try/except of the parsing block, so it is not
turned into an Error verdict: it propagates and aborts the whole analysis
loop, losing even the already-computable rows of other tickers. -/
theorem transport_error_aborts_run :
    runAnalyses
      [("AAPL", ModelOutcome.gotResponse
          (Except.ok ("\x7b\"action\": \"Buy\", \"justification\": \"uptrend\"\x7d"))),
       ("MSFT", ModelOutcome.raisedOnCall "ConnectionError: network unreachable")] =
      Except.error "ConnectionError: network unreachable" :=
  rfl

/-- C1 amended: whenever every ticker obtains a readable reply text, the
analysis loop completes with one summary row per ticker (it never aborts),
and each ticker whose reply fails span extraction or JSON parsing gets a
verdict with action `"Error"`; only a raising model call or an unreadable
response text aborts the run. -/
theorem obtained_reply_failures_degrade_to_error (items : List (String × String)) :
    runAnalyses (items.map (fun p => (p.1, ModelOutcome.gotResponse (Except.ok p.2)))) =
      Except.ok (items.map (fun p => summary_row p.1 (parse_model_response p.2))) ∧
    ∀ p ∈ items, parse_failed p.2 →
      dict_get (parse_model_response p.2) "action" (Json.str "N/A") = Json.str "Error" := by
  constructor
  · induction items with
    | nil => rfl
    | cons p rest ih =>
      simp only [List.map_cons, runAnalyses, analyze_recommendation, ih]
  · intro p _ hf
    exact parse_failed_action_error hf

/-- Witness for C1 (amended) at a single ticker whose reply has no braces. -/
theorem obtained_reply_failures_degrade_to_error_witness :
    runAnalyses [("AAPL", ModelOutcome.gotResponse (Except.ok ("model refused")))] =
      Except.ok [summary_row "AAPL" (parse_model_response ("model refused"))] ∧
    dict_get (parse_model_response ("model refused")) "action" (Json.str "N/A") =
      Json.str "Error" :=
  ⟨(obtained_reply_failures_degrade_to_error [("AAPL", "model refused")]).1,
   (obtained_reply_failures_degrade_to_error [("AAPL", "model refused")]).2
     ("AAPL", "model refused") (by simp) (Or.inl (by rfl))⟩

/-- C6 counterexample: the code never validates the action label, so a model
reply carrying an action outside the seven labels (and distinct from
`"Error"`) flows through unchanged into the verdict and the summary row. -/
theorem action_label_not_validated :
    dict_get (parse_model_response ("Result: \x7b\"action\": \"Dance\", \"justification\": \"vibes\"\x7d"))
        "action" (Json.str "N/A") = Json.str "Dance" ∧
    "Dance" ∉ allowed_actions ∧ ("Dance" : String) ≠ "Error" :=
  ⟨rfl, by decide, by decide⟩

/-- C6 amended: every produced verdict either carries the error marker
`"Error"` as its action (the parse-failure paths), or is exactly the JSON
object parsed out of the model reply, with whatever unvalidated action value
the model supplied; membership in the seven enumerated labels is never
enforced by the code. -/
theorem verdict_action_error_or_model_supplied (t : String) :
    dict_get (parse_model_response t) "action" (Json.str "N/A") = Json.str "Error" ∨
    ∃ s, extract_json_span t = some s ∧ json_loads s = Except.ok (parse_model_response t) := by
  cases hs : extract_json_span t with
  | none => exact Or.inl (parse_failed_action_error (Or.inl hs))
  | some s =>
    cases hl : json_loads s with
    | error e => exact Or.inl (parse_failed_action_error (Or.inr ⟨s, hs, e, hl⟩))
    | ok j =>
      refine Or.inr ⟨s, rfl, ?_⟩
      simp only [parse_model_response, hs, hl]

/-- C10: when the reply parses to a JSON object lacking the `action` or the
`justification` key, no exception is raised (`dict.get` is total): the
summary row falls back to `"N/A"` as the recommendation, and the per-ticker
view falls back to the text `"No justification provided."`. -/
theorem missing_verdict_keys_use_defaults (t : String) (j : Json)
    (hp : ∃ s, extract_json_span t = some s ∧ json_loads s = Except.ok j) :
    (hasKey j "action" = false →
      ∀ tk, summary_row tk (parse_model_response t) = (tk, Json.str "N/A")) ∧
    (hasKey j "justification" = false →
      shown_justification (parse_model_response t) = Json.str "No justification provided.") := by
  obtain ⟨s, hs, hl⟩ := hp
  have hpm : parse_model_response t = j := by
    simp only [parse_model_response, hs, hl]
  constructor
  · intro ha tk
    simp only [summary_row, hpm, dict_get_of_hasKey_false ha]
  · intro hj
    simp only [shown_justification, hpm, dict_get_of_hasKey_false hj]

/-- Witness for C10: a parsed object with neither key. -/
theorem missing_verdict_keys_use_defaults_witness :
    summary_row "AAPL" (parse_model_response ("\x7b\"foo\": \"bar\"\x7d")) =
      ("AAPL", Json.str "N/A") ∧
    shown_justification (parse_model_response ("\x7b\"foo\": \"bar\"\x7d")) =
      Json.str "No justification provided." :=
  ⟨(missing_verdict_keys_use_defaults ("\x7b\"foo\": \"bar\"\x7d")
      (Json.obj [("foo", Json.str "bar")]) ⟨_, rfl, rfl⟩).1 rfl "AAPL",
   (missing_verdict_keys_use_defaults ("\x7b\"foo\": \"bar\"\x7d")
      (Json.obj [("foo", Json.str "bar")]) ⟨_, rfl, rfl⟩).2 rfl⟩

/-- C2 counterexample: `fetch_fmp_data` only sorts (`df.sort_values`) and
never deduplicates, so a payload carrying two bars with the same date yields
a fetched series with a duplicate date, which is not strictly ascending. -/
theorem duplicate_dates_survive_fetch :
    (fetch_fmp_data (FetchOutcome.ok (some
        [{ date := 3, openPrice := 1, high := 1, low := 1, close := 1, volume := 1 },
         { date := 3, openPrice := 2, high := 2, low := 2, close := 2, volume := 2 }]))).map
      RawBar.date = [3, 3] ∧
    ¬ List.Pairwise (fun a b : Nat => a < b) [3, 3] :=
  ⟨rfl, by decide⟩

/-- C2 amended: every fetched series is sorted non-decreasing by date, and
whenever the API payload itself carries no duplicate dates the series is
sorted strictly ascending with no two bars on the same date. -/
theorem fetched_series_sorted (hist : List RawBar) :
    (fetch_fmp_data (FetchOutcome.ok (some hist))).Pairwise (fun a b => a.date ≤ b.date) ∧
    ((hist.map RawBar.date).Nodup →
      (fetch_fmp_data (FetchOutcome.ok (some hist))).Pairwise (fun a b => a.date < b.date)) := by
  have htot : IsTotal RawBar (fun a b => a.date ≤ b.date) :=
    ⟨fun a b => Nat.le_total a.date b.date⟩
  have htrans : IsTrans RawBar (fun a b => a.date ≤ b.date) :=
    ⟨fun _ _ _ hab hbc => Nat.le_trans hab hbc⟩
  by_cases he : hist.isEmpty
  · simp only [fetch_fmp_data, he, if_pos]
    exact ⟨List.Pairwise.nil, fun _ => List.Pairwise.nil⟩
  · simp only [fetch_fmp_data, he, if_neg, Bool.false_eq_true, not_false_iff]
    have hsorted : (sortBars hist).Pairwise (fun a b => a.date ≤ b.date) :=
      @List.sorted_insertionSort RawBar (fun a b => a.date ≤ b.date) _ htot htrans hist
    refine ⟨hsorted, fun hnd => ?_⟩
    have hperm : (sortBars hist).Perm hist := List.perm_insertionSort _ hist
    have hndsorted : ((sortBars hist).map RawBar.date).Nodup :=
      ((hperm.map RawBar.date).nodup_iff).mpr hnd
    have hne : (sortBars hist).Pairwise (fun a b => a.date ≠ b.date) :=
      List.pairwise_map.mp hndsorted
    exact (hsorted.and hne).imp (fun h => Nat.lt_of_le_of_ne h.1 h.2)

/-- Witness for C2 (amended) at a two-bar payload with distinct dates. -/
theorem fetched_series_sorted_witness :
    (fetch_fmp_data (FetchOutcome.ok (some
        [{ date := 7, openPrice := 1, high := 1, low := 1, close := 1, volume := 1 },
         { date := 2, openPrice := 2, high := 2, low := 2, close := 2, volume := 2 }]))).Pairwise
      (fun a b => a.date < b.date) :=
  (fetched_series_sorted
      [{ date := 7, openPrice := 1, high := 1, low := 1, close := 1, volume := 1 },
       { date := 2, openPrice := 2, high := 2, low := 2, close := 2, volume := 2 }]).2
    (by decide)

/-- Keys of a dict after insertion: the inserted key plus the old keys. -/
theorem mem_dictInsert_fst {α : Type} (d : List (String × α)) (k k0 : String) (v : α) :
    k ∈ (dictInsert d k0 v).map Prod.fst ↔ k = k0 ∨ k ∈ d.map Prod.fst := by
  induction d with
  | nil => simp [dictInsert]
  | cons p rest ih =>
    by_cases hk : p.1 = k0
    · rw [show (p :: rest : List (String × α)) = (p.1, p.2) :: rest from rfl]
      simp only [dictInsert, if_pos hk]
      simp [hk]
    · rw [show (p :: rest : List (String × α)) = (p.1, p.2) :: rest from rfl]
      simp only [dictInsert, if_neg hk]
      simp only [List.map_cons, List.mem_cons, ih]
      tauto

/-- A ticker whose every fetch is empty never enters the `stock_data`
dict, whatever the other tickers do. -/
theorem not_mem_fetch_button (tickers : List String) (resp : String → FetchOutcome)
    (t : String) (hempty : fetch_fmp_data (resp t) = []) :
    t ∉ (fetch_button tickers resp).map Prod.fst := by
  suffices h : ∀ d : List (String × List RawBar), t ∉ d.map Prod.fst →
      t ∉ (tickers.foldl
        (fun d tk =>
          let df := fetch_fmp_data (resp tk)
          if df.isEmpty then d else dictInsert d tk df)
        d).map Prod.fst by
    exact h [] (by simp)
  induction tickers with
  | nil => intro d hd; simpa using hd
  | cons tk rest ih =>
    intro d hd
    simp only [List.foldl_cons]
    by_cases hemp : (fetch_fmp_data (resp tk)).isEmpty
    · simpa only [if_pos hemp] using ih d hd
    · simp only [if_neg hemp]
      refine ih _ ?_
      rw [mem_dictInsert_fst]
      rintro (rfl | hmem)
      · exact hemp (by rw [hempty]; rfl)
      · exact hd hmem

/-- C3: a fetch that suffers a transport error, a non-success status, or a
missing or empty `historical` field yields an empty PriceSeries, the ticker
is excluded from the analyzed set (`stock_data`) and hence from the summary
table, and the pipeline continues with the remaining tickers; concretely, on
tickers `["AAPL","MSFT"]` with the AAPL fetch returning an empty payload and
the MSFT fetch succeeding, the summary table holds exactly the one MSFT
row. -/
theorem fetch_failure_skips_ticker (tickers : List String)
    (resp : String → FetchOutcome) (t : String) (hf : fetch_failure (resp t)) :
    fetch_fmp_data (resp t) = [] ∧
    t ∉ (fetch_button tickers resp).map Prod.fst ∧
    pipeline_summary ["AAPL", "MSFT"] demo_resp demo_model =
      Except.ok [("MSFT", Json.str "Buy")] := by
  have hempty : fetch_fmp_data (resp t) = [] := by
    cases ho : resp t with
    | httpError e => rfl
    | ok historical =>
      cases historical with
      | none => rfl
      | some h =>
        rw [ho] at hf
        simp only [fetch_failure] at hf
        simp only [fetch_fmp_data, hf, List.isEmpty_nil, if_pos]
  exact ⟨hempty, not_mem_fetch_button tickers resp t hempty, rfl⟩

/-- Witness for C3 at the AAPL/MSFT scenario itself. -/
theorem fetch_failure_skips_ticker_witness :
    fetch_fmp_data (demo_resp "AAPL") = [] ∧
    "AAPL" ∉ (fetch_button ["AAPL", "MSFT"] demo_resp).map Prod.fst ∧
    pipeline_summary ["AAPL", "MSFT"] demo_resp demo_model =
      Except.ok [("MSFT", Json.str "Buy")] :=
  fetch_failure_skips_ticker ["AAPL", "MSFT"] demo_resp "AAPL" rfl

/-- One `add_indicator` call never touches the six source columns. -/
theorem add_indicator_step_preserves (data : DataFrame) (fig : List Trace)
    (ind : Indicator) :
    (add_indicator data fig ind).1.Date = data.Date ∧
    (add_indicator data fig ind).1.Open = data.Open ∧
    (add_indicator data fig ind).1.High = data.High ∧
    (add_indicator data fig ind).1.Low = data.Low ∧
    (add_indicator data fig ind).1.Close = data.Close ∧
    (add_indicator data fig ind).1.Volume = data.Volume := by
  cases ind <;> exact ⟨rfl, rfl, rfl, rfl, rfl, rfl⟩

/-- C9: computing any selection of the four indicators over a fetched frame
leaves the source columns Date, Open, High, Low, Close and Volume of every
bar unchanged; indicator values only land in appended traces and, for VWAP,
an appended derived column. -/
theorem add_indicator_preserves_source_fields (data : DataFrame) (fig : List Trace)
    (inds : List Indicator) :
    (apply_indicators data fig inds).1.Date = data.Date ∧
    (apply_indicators data fig inds).1.Open = data.Open ∧
    (apply_indicators data fig inds).1.High = data.High ∧
    (apply_indicators data fig inds).1.Low = data.Low ∧
    (apply_indicators data fig inds).1.Close = data.Close ∧
    (apply_indicators data fig inds).1.Volume = data.Volume := by
  induction inds generalizing data fig with
  | nil => exact ⟨rfl, rfl, rfl, rfl, rfl, rfl⟩
  | cons ind rest ih =>
    have hstep := add_indicator_step_preserves data fig ind
    have hrest := ih (add_indicator data fig ind).1 (add_indicator data fig ind).2
    simp only [apply_indicators, List.foldl_cons] at hrest ⊢
    exact ⟨hrest.1.trans hstep.1, hrest.2.1.trans hstep.2.1,
           hrest.2.2.1.trans hstep.2.2.1, hrest.2.2.2.1.trans hstep.2.2.2.1,
           hrest.2.2.2.2.1.trans hstep.2.2.2.2.1, hrest.2.2.2.2.2.trans hstep.2.2.2.2.2⟩

/-- C7: on a constant-price series of length at least 20, the SMA(20) value
equals the constant at every index from the 20th bar onward, and the EMA(20)
value equals the constant at every index from the first bar. -/
theorem constant_series_sma_ema (n : Nat) (c : ℚ) (i : Nat)
    (_hn : 20 ≤ n) (hi : i < n) :
    (19 ≤ i → (rolling_mean 20 (List.replicate n c))[i]? = some (some c)) ∧
    (ewm_mean 20 (List.replicate n c))[i]? = some c := by
  have hlen : (List.replicate n c).length = n := List.length_replicate n c
  constructor
  · intro h19
    simp only [rolling_mean, hlen, List.getElem?_map, List.getElem?_range hi,
      Option.map_some']
    rw [if_neg (by omega)]
    rw [List.drop_replicate, List.take_replicate,
      show (20 ⊓ (n - (i + 1 - 20))) = 20 by omega, List.sum_replicate]
    rw [nsmul_eq_mul]
    norm_num
  · simp only [ewm_mean, hlen, List.getElem?_map, List.getElem?_range hi,
      Option.map_some', Nat.cast_ofNat]
    have hgetD : ∀ j ∈ Finset.range (i + 1),
        (1 - 2 / ((20 : ℚ) + 1)) ^ j * (List.replicate n c).getD (i - j) 0 =
          (1 - 2 / ((20 : ℚ) + 1)) ^ j * c := by
      intro j _
      have hij : i - j < n := lt_of_le_of_lt (Nat.sub_le i j) hi
      rw [List.getD_eq_getElem?_getD, List.getElem?_replicate, if_pos hij]
      rfl
    rw [Finset.sum_congr rfl hgetD, ← Finset.sum_mul]
    have hS : 0 < ∑ j ∈ Finset.range (i + 1), (1 - 2 / ((20 : ℚ) + 1)) ^ j := by
      apply Finset.sum_pos
      · intro j _
        apply pow_pos
        norm_num
      · exact Finset.nonempty_range_iff.mpr (Nat.succ_ne_zero i)
    exact congrArg some (mul_div_cancel_left₀ c (ne_of_gt hS))

/-- Witness for C7 at a constant series of 21 bars at price 7/2. -/
theorem constant_series_sma_ema_witness :
    (rolling_mean 20 (List.replicate 21 (7 / 2 : ℚ)))[19]? = some (some (7 / 2)) ∧
    (ewm_mean 20 (List.replicate 21 (7 / 2 : ℚ)))[19]? = some (7 / 2) :=
  ⟨(constant_series_sma_ema 21 (7 / 2) 19 (by norm_num) (by norm_num)).1 (by norm_num),
   (constant_series_sma_ema 21 (7 / 2) 19 (by norm_num) (by norm_num)).2⟩

/-- Upper bound on a volume-weighted sum: if every close is at most `M` and
every volume is nonnegative, the sum of products is at most `M` times the
volume sum. -/
theorem sum_zipWith_mul_le (M : ℚ) :
    ∀ (cs vs : List ℚ), cs.length = vs.length →
      (∀ v ∈ vs, 0 ≤ v) → (∀ c ∈ cs, c ≤ M) →
      (List.zipWith (fun c v => c * v) cs vs).sum ≤ M * vs.sum := by
  intro cs
  induction cs with
  | nil =>
    intro vs hl _ _
    have : vs = [] := List.eq_nil_of_length_eq_zero hl.symm
    simp [this]
  | cons c cs ih =>
    intro vs hl hv hM
    cases vs with
    | nil => simp at hl
    | cons v vs =>
      have hl' : cs.length = vs.length := by simpa using hl
      have h1 : c * v ≤ M * v :=
        mul_le_mul_of_nonneg_right (hM c (List.mem_cons_self c cs))
          (hv v (List.mem_cons_self v vs))
      have h2 : (List.zipWith (fun c v => c * v) cs vs).sum ≤ M * vs.sum :=
        ih vs hl' (fun x hx => hv x (List.mem_cons_of_mem v hx))
          (fun x hx => hM x (List.mem_cons_of_mem c hx))
      simp only [List.zipWith_cons_cons, List.sum_cons]
      calc c * v + (List.zipWith (fun c v => c * v) cs vs).sum
          ≤ M * v + M * vs.sum := add_le_add h1 h2
        _ = M * (v + vs.sum) := (mul_add M v vs.sum).symm

/-- Lower bound counterpart of `sum_zipWith_mul_le`. -/
theorem sum_zipWith_mul_ge (m : ℚ) :
    ∀ (cs vs : List ℚ), cs.length = vs.length →
      (∀ v ∈ vs, 0 ≤ v) → (∀ c ∈ cs, m ≤ c) →
      m * vs.sum ≤ (List.zipWith (fun c v => c * v) cs vs).sum := by
  intro cs
  induction cs with
  | nil =>
    intro vs hl _ _
    have : vs = [] := List.eq_nil_of_length_eq_zero hl.symm
    simp [this]
  | cons c cs ih =>
    intro vs hl hv hm
    cases vs with
    | nil => simp at hl
    | cons v vs =>
      have hl' : cs.length = vs.length := by simpa using hl
      have h1 : m * v ≤ c * v :=
        mul_le_mul_of_nonneg_right (hm c (List.mem_cons_self c cs))
          (hv v (List.mem_cons_self v vs))
      have h2 : m * vs.sum ≤ (List.zipWith (fun c v => c * v) cs vs).sum :=
        ih vs hl' (fun x hx => hv x (List.mem_cons_of_mem v hx))
          (fun x hx => hm x (List.mem_cons_of_mem c hx))
      simp only [List.zipWith_cons_cons, List.sum_cons]
      calc m * (v + vs.sum) = m * v + m * vs.sum := mul_add m v vs.sum
        _ ≤ c * v + (List.zipWith (fun c v => c * v) cs vs).sum := add_le_add h1 h2

/-- C8 counterexample: with Volume ≥ 0 throughout but zero cumulative
volume, the VWAP cell is NaN (`0/0` in pandas, modelled `none`), so it does
not lie within `[min(Close), max(Close)]` at that index: on the one-bar
series Close = [5], Volume = [0], the interval is `[5, 5]` and VWAP at index
0 is no number at all. -/
theorem vwap_undefined_on_zero_volume :
    (∀ v ∈ [(0 : ℚ)], 0 ≤ v) ∧
    (vwap_series [(5 : ℚ)] [(0 : ℚ)])[0]? = some none ∧
    ¬ ∃ x : ℚ, (vwap_series [(5 : ℚ)] [(0 : ℚ)])[0]? = some (some x) := by
  have hval : (vwap_series [(5 : ℚ)] [(0 : ℚ)])[0]? = some none := by
    norm_num [vwap_series]
  refine ⟨by norm_num, hval, ?_⟩
  rintro ⟨x, hx⟩
  rw [hval] at hx
  exact Option.noConfusion (Option.some.inj hx)

/-- C8 amended: on a series whose volumes are all nonnegative, at every
index where the VWAP cell is defined (equivalently, where the cumulative
volume is positive), its value lies between every lower bound and every
upper bound of the Close column — in particular within
`[min(Close), max(Close)]`. -/
theorem vwap_bounded_when_defined (closes vols : List ℚ) (k : Nat) (x m M : ℚ)
    (hlen : vols.length = closes.length)
    (hv : ∀ v ∈ vols, 0 ≤ v)
    (hm : ∀ c ∈ closes, m ≤ c) (hM : ∀ c ∈ closes, c ≤ M)
    (hx : (vwap_series closes vols)[k]? = some (some x)) :
    m ≤ x ∧ x ≤ M := by
  simp only [vwap_series, List.getElem?_map] at hx
  rcases Option.map_eq_some'.mp hx with ⟨j, hj, hfx⟩
  rcases List.getElem?_eq_some_iff.mp hj with ⟨hk, hjk⟩
  rw [List.length_range] at hk
  rw [List.getElem_range] at hjk
  subst hjk
  by_cases hden : (vols.take (k + 1)).sum = 0
  · rw [if_pos hden] at hfx
    exact absurd hfx (by simp)
  · rw [if_neg hden] at hfx
    have hxval := Option.some.inj hfx
    have hden_nonneg : 0 ≤ (vols.take (k + 1)).sum :=
      List.sum_nonneg (fun v hv0 => hv v (List.take_subset (k + 1) vols hv0))
    have hden_pos : 0 < (vols.take (k + 1)).sum :=
      lt_of_le_of_ne hden_nonneg (Ne.symm hden)
    have hlen' : (closes.take (k + 1)).length = (vols.take (k + 1)).length := by
      rw [List.length_take, List.length_take, hlen]
    have hzip : (List.zipWith (fun c v => c * v) closes vols).take (k + 1) =
        List.zipWith (fun c v => c * v) (closes.take (k + 1)) (vols.take (k + 1)) :=
      List.take_zipWith
    have hub : ((List.zipWith (fun c v => c * v) closes vols).take (k + 1)).sum ≤
        M * (vols.take (k + 1)).sum := by
      rw [hzip]
      exact sum_zipWith_mul_le M (closes.take (k + 1)) (vols.take (k + 1)) hlen'
        (fun v hv0 => hv v (List.take_subset (k + 1) vols hv0))
        (fun c hc0 => hM c (List.take_subset (k + 1) closes hc0))
    have hlb : m * (vols.take (k + 1)).sum ≤
        ((List.zipWith (fun c v => c * v) closes vols).take (k + 1)).sum := by
      rw [hzip]
      exact sum_zipWith_mul_ge m (closes.take (k + 1)) (vols.take (k + 1)) hlen'
        (fun v hv0 => hv v (List.take_subset (k + 1) vols hv0))
        (fun c hc0 => hm c (List.take_subset (k + 1) closes hc0))
    constructor
    · rw [← hxval]
      exact (le_div_iff₀ hden_pos).mpr hlb
    · rw [← hxval]
      exact (div_le_iff₀ hden_pos).mpr hub

/-- Witness for C8 (amended) on Close = [4, 6], Volume = [1, 1] at index 1,
where VWAP is 5 and the Close bounds are 4 and 6. -/
theorem vwap_bounded_when_defined_witness :
    (vwap_series [(4 : ℚ), 6] [(1 : ℚ), 1])[1]? = some (some 5) ∧
    (4 : ℚ) ≤ 5 ∧ (5 : ℚ) ≤ 6 :=
  ⟨by norm_num [vwap_series],
   vwap_bounded_when_defined [(4 : ℚ), 6] [(1 : ℚ), 1] 1 5 4 6 rfl
     (by norm_num) (by norm_num) (by norm_num) (by norm_num [vwap_series])⟩
